import Mathlib

/-!
Verification of the DeepLab v2 multi-scale training repository
(`libs/models/deeplab.py`, `train_cityscapes.py`) via a shallow embedding.

Tensors are modelled as shaped arrays of rationals (index functions), the
multi-scale wrapper `MSC.forward` as an explicit state-passing function, the
ASPP head, the polynomial learning-rate scheduler, the checkpoint loading
call, the gradient-accumulation data-loader loop and the optimizer parameter
grouping as executable Lean functions translated from the source.
-/

set_option maxRecDepth 8192

namespace DeepLabSpec

/-- A (batch, channel, height, width) tensor of rationals.  The `data`
function is total; entries outside the shape are irrelevant padding. -/
structure Tensor where
  batch : Nat
  channels : Nat
  height : Nat
  width : Nat
  data : Nat → Nat → Nat → Nat → ℚ

def zeroTensor : Tensor :=
  { batch := 0, channels := 0, height := 0, width := 0, data := fun _ _ _ _ => 0 }

instance : Inhabited Tensor := ⟨zeroTensor⟩

/-- Model of `torch.stack(ts)`: a tensor with one extra leading dimension
indexing the list. -/
structure Stacked where
  count : Nat
  batch : Nat
  channels : Nat
  height : Nat
  width : Nat
  data : Nat → Nat → Nat → Nat → Nat → ℚ

def torchStack (ts : List Tensor) : Stacked :=
  { count := ts.length,
    batch := (ts.headD zeroTensor).batch,
    channels := (ts.headD zeroTensor).channels,
    height := (ts.headD zeroTensor).height,
    width := (ts.headD zeroTensor).width,
    data := fun s n c i j => ((ts.getD s zeroTensor).data n c i j) }

/-- Model of `torch.max(st, dim=0)[0]`: reduce the leading dimension with
the binary maximum. -/
def torchMaxDim0 (st : Stacked) : Tensor :=
  { batch := st.batch, channels := st.channels,
    height := st.height, width := st.width,
    data := fun n c i j =>
      match (List.range st.count).map (fun s => st.data s n c i j) with
      | [] => 0
      | v :: vs => vs.foldl max v }

/-- The attributes `interp075`, `interp050`, `interp100` that `MSC.forward`
assigns on `self`: each records the target size the `nn.Upsample` module was
constructed with, `none` when the attribute has never been assigned. -/
structure MSCState where
  interp075 : Option Nat
  interp050 : Option Nat
  interp100 : Option Nat
deriving DecidableEq

def freshMSCState : MSCState :=
  { interp075 := none, interp050 := none, interp100 := none }

/-- `MSC.forward` from `libs/models/deeplab.py`.  `upsample s t` models
`nn.Upsample(size=(s, s), mode='bilinear')(t)` of the external tensor
library; `scale` models `self.scale`, the wrapped composite network.
`int(input_size * 0.75)` and `int(input_size * 0.5)` are the exact natural
floors `3*n/4` and `n/2`.  Returns the updated module state together with
either a single tensor (evaluation mode) or a list of tensors (training
mode), as the Python function returns either a tensor or a list. -/
def MSC_forward (upsample : Nat → Tensor → Tensor) (scale : Tensor → Tensor)
    (training : Bool) (st : MSCState) (x : Tensor) :
    MSCState × (Tensor ⊕ List Tensor) :=
  let output100 := scale x
  let input_size := x.height
  let size100 := output100.height
  let size075 := 3 * input_size / 4
  let size050 := input_size / 2
  let st' : MSCState :=
    { interp075 := some size075, interp050 := some size050, interp100 := some size100 }
  let output075 := scale (upsample size075 x)
  let output050 := scale (upsample size050 x)
  let outputMAX := torchMaxDim0 (torchStack
    [output100, upsample size100 output075, upsample size100 output050])
  (st', if training then Sum.inr [output100, output075, output050, outputMAX]
        else Sum.inl outputMAX)

/-- Extract the fused score map from either form of the wrapper's result:
the single tensor in evaluation mode, the last list entry in training mode. -/
def fusedOutput : Tensor ⊕ List Tensor → Tensor
  | Sum.inl t => t
  | Sum.inr l => l.getLastD zeroTensor

/-- A concrete 1x3x32x32 input used for the concrete instances below. -/
def inputT32 : Tensor :=
  { batch := 1, channels := 3, height := 32, width := 32, data := fun _ _ _ _ => 0 }

/-- The learning rates of the optimizer's three parameter groups
(`optimizer.param_groups[k]['lr']` for k = 0, 1, 2). -/
structure ParamGroupRates where
  lr0 : ℚ
  lr1 : ℚ
  lr2 : ℚ
deriving DecidableEq

/-- `poly_lr_scheduler` from `train_cityscapes.py`: when
`iter % lr_decay_iter` is nonzero or `iter > max_iter` the rates are left
unchanged (the Python function returns None before assigning); otherwise
`new_lr = init_lr * (1 - iter/max_iter)**power` is written to the three
groups with multipliers 1, 10, 20.  The exponent is taken as a natural
number. -/
def poly_lr_scheduler (groups : ParamGroupRates) (init_lr : ℚ)
    (iter lr_decay_iter max_iter : Nat) (power : Nat) : ParamGroupRates :=
  if iter % lr_decay_iter ≠ 0 ∨ iter > max_iter then groups
  else
    let new_lr := init_lr * (1 - (iter : ℚ) / (max_iter : ℚ)) ^ power
    { lr0 := new_lr, lr1 := 10 * new_lr, lr2 := 20 * new_lr }

/-- A parameter tensor of a state dict: its shape and a rational standing
for its contents (enough to observe which tensor a key is bound to). -/
structure PTensor where
  shape : List Nat
  content : ℚ
deriving DecidableEq

/-- Ordered-keyed lookup in a state dict (first binding of the key). -/
def lookupKey (sd : List (String × PTensor)) (k : String) : Option PTensor :=
  (sd.find? (fun e => e.1 == k)).map (fun e => e.2)

/-- Whether `pat` matches the front of `s`, character by character. -/
def leadsWith : List Char → List Char → Bool
  | [], _ => true
  | _ :: _, [] => false
  | a :: as, b :: bs => a == b && leadsWith as bs

/-- Whether `pat` occurs as a contiguous run somewhere in `s`. -/
def occursIn (pat : List Char) : List Char → Bool
  | [] => leadsWith pat []
  | c :: rest => leadsWith pat (c :: rest) || occursIn pat rest

/-- Substring containment, modelling the Python expression `sub in s`. -/
def containsSub (s sub : String) : Bool := occursIn sub.data s.data

/-- Semantics of the external collaborator
`torch.nn.Module.load_state_dict(state_dict, strict)`: parameters whose key
is present with a matching shape are overwritten from the checkpoint; a
present key with a mismatched shape is an error regardless of `strict`;
missing and unexpected keys are errors only when `strict` is true, and are
otherwise silently skipped, the model keeping its fresh initialization for
every skipped key. -/
def load_state_dict (model ckpt : List (String × PTensor)) (strict : Bool) :
    Except String (List (String × PTensor)) :=
  let sizeMismatch := model.any (fun e =>
    match lookupKey ckpt e.1 with
    | some q => decide (q.shape ≠ e.2.shape)
    | none => false)
  let missing := model.any (fun e => (lookupKey ckpt e.1).isNone)
  let unexpected := ckpt.any (fun e => (lookupKey model e.1).isNone)
  if sizeMismatch || (strict && (missing || unexpected)) then
    Except.error "Error in loading state_dict"
  else
    Except.ok (model.map (fun e =>
      match lookupKey ckpt e.1 with
      | some q => if q.shape = e.2.shape then (e.1, q) else e
      | none => e))

/-- The pretrained-checkpoint load performed by `main` in
`train_cityscapes.py`: `model.load_state_dict(state_dict, strict=False)`. -/
def main_load_checkpoint (model ckpt : List (String × PTensor)) :
    Except String (List (String × PTensor)) :=
  load_state_dict model ckpt false

/-- A one-parameter model whose single key belongs to the backbone, not to
the ASPP head. -/
def backboneOnlyModel : List (String × PTensor) :=
  [("scale.layer1.conv1.conv.weight", { shape := [64, 3, 7, 7], content := 1 })]

/-- Output spatial size of a 2-d convolution along one axis:
`floor((in + 2*padding - dilation*(kernel-1) - 1)/stride) + 1`. -/
def convOutSize (n k s p d : Nat) : Nat := (n + 2 * p - (d * (k - 1) + 1)) / s + 1

/-- Output spatial size along one axis of `nn.MaxPool2d(k, s, p,
ceil_mode=True)`: `ceil((in + 2*padding - kernel)/stride) + 1`. -/
def poolOutSizeCeil (n k s p : Nat) : Nat := (n + 2 * p - k + (s - 1)) / s + 1

/-- Modelled from the spec: `libs/models/resnet.py` (imported by
`deeplab.py` for `_ResBlock`) is not in the sources.  Per §4.2 a bottleneck
unit is a 1x1 reduction, then the 3x3 convolution carrying the unit's
stride and dilation (padding equal to the dilation so that stride-1 units
preserve spatial size), then a 1x1 expansion.  This is its spatial-size
map along one axis. -/
def bottleneckOutSize (stride dilation n : Nat) : Nat :=
  let a := convOutSize n 1 1 0 1
  let b := convOutSize a 3 stride dilation dilation
  convOutSize b 1 1 0 1

/-- Modelled from the spec: the `count - 1` trailing units of a residual
stage, each with stride 1 (§4.2: only the first unit performs the
stride transition). -/
def resStackRestSize (count dilation n : Nat) : Nat :=
  match count with
  | 0 => n
  | Nat.succ k => resStackRestSize k dilation (bottleneckOutSize 1 dilation n)

/-- Modelled from the spec: spatial-size map of `_ResBlock(count, ...,
stride, dilation)` — the first bottleneck carries the stage's stride, the
remaining `count - 1` bottlenecks use stride 1. -/
def resBlockOutSize (count stride dilation n : Nat) : Nat :=
  match count with
  | 0 => n
  | Nat.succ k => resStackRestSize k dilation (bottleneckOutSize stride dilation n)

/-- Spatial-size map of `DeepLabV2(n_classes, [3, 4, 23, 3], [6, 12, 18,
24])` along one axis, following `DeepLabV2.__init__`: the 7x7 stride-2
pad-3 stem convolution, the 3x3 stride-2 pad-1 ceil-mode max pool, the four
residual stages with strides 1, 2, 1, 1 and dilations 1, 1, 2, 4, and an
ASPP branch (3x3, stride 1, padding = dilation = 6). -/
def deeplabOutSize (n : Nat) : Nat :=
  let a := convOutSize n 7 2 3 1
  let b := poolOutSizeCeil a 3 2 1
  let c := resBlockOutSize 3 1 1 b
  let d := resBlockOutSize 4 2 1 c
  let e := resBlockOutSize 23 1 2 d
  let f := resBlockOutSize 3 1 4 e
  convOutSize f 3 1 6 6

/-- One branch of the ASPP head: a 2-d convolution as constructed in
`_ASPPModule.__init__`, with its weight and bias. -/
structure ASPPBranch where
  inChannels : Nat
  outChannels : Nat
  kernel : Nat
  stride : Nat
  padding : Nat
  dilation : Nat
  weight : Nat → Nat → Nat → Nat → ℚ
  bias : Nat → ℚ

/-- Read a tensor entry at possibly negative (padded) spatial coordinates:
zero outside the spatial extent. -/
def padRead (x : Tensor) (n c : Nat) (r s : Int) : ℚ :=
  if 0 ≤ r ∧ r < (x.height : Int) ∧ 0 ≤ s ∧ s < (x.width : Int) then
    x.data n c r.toNat s.toNat
  else 0

/-- `nn.Conv2d` semantics for a branch: cross-correlation with zero
padding, the given stride and dilation, plus the bias. -/
def conv2d (br : ASPPBranch) (x : Tensor) : Tensor :=
  { batch := x.batch,
    channels := br.outChannels,
    height := convOutSize x.height br.kernel br.stride br.padding br.dilation,
    width := convOutSize x.width br.kernel br.stride br.padding br.dilation,
    data := fun n o i j =>
      br.bias o +
        ∑ c ∈ Finset.range br.inChannels,
          ∑ u ∈ Finset.range br.kernel,
            ∑ v ∈ Finset.range br.kernel,
              br.weight o c u v *
                padRead x n c
                  ((i * br.stride + u * br.dilation : Int) - (br.padding : Int))
                  ((j * br.stride + v * br.dilation : Int) - (br.padding : Int)) }

/-- `_ASPPModule.__init__`: one 3x3 stride-1 convolution per pyramid entry,
with `zip(pyramids, pyramids)` supplying (dilation, padding) = (p, p); the
branch weights and biases are supplied per branch index. -/
def mkASPPStages (inC outC : Nat) (pyramids : List Nat)
    (w : Nat → Nat → Nat → Nat → Nat → ℚ) (b : Nat → Nat → ℚ) : List ASPPBranch :=
  pyramids.enum.map (fun ip =>
    { inChannels := inC, outChannels := outC, kernel := 3, stride := 1,
      padding := ip.2, dilation := ip.2, weight := w ip.1, bias := b ip.1 })

/-- The Python accumulator of `_ASPPModule.forward`, which starts as the
integer 0 and becomes a tensor after the first `h += stage(x)`. -/
inductive PyNum where
  | int (z : Int)
  | tensor (t : Tensor)

/-- `h += stage(x)`: integer-to-tensor broadcast addition, or elementwise
tensor addition (the operands share their shape in `_ASPPModule.forward`). -/
def pyAdd : PyNum → Tensor → PyNum
  | PyNum.int z, t =>
      PyNum.tensor { t with data := fun n c i j => (z : ℚ) + t.data n c i j }
  | PyNum.tensor a, t =>
      PyNum.tensor { a with data := fun n c i j => a.data n c i j + t.data n c i j }

/-- `_ASPPModule.forward`: `h = 0`, then `h += stage(x)` over the stages in
order. -/
def aspp_forward (stages : List ASPPBranch) (x : Tensor) : PyNum :=
  stages.foldl (fun h st => pyAdd h (conv2d st x)) (PyNum.int 0)

/-- All-zero branch weights, for concrete instances. -/
def wZero : Nat → Nat → Nat → Nat → Nat → ℚ := fun _ _ _ _ _ => 0

/-- All-zero branch biases, for concrete instances. -/
def bZero : Nat → Nat → ℚ := fun _ _ => 0

/-- A concrete 1x1x5x5 input for concrete ASPP instances. -/
def inputT5 : Tensor :=
  { batch := 1, channels := 1, height := 5, width := 5, data := fun _ _ _ _ => 0 }

/-- State of the training driver's data-loading: how many batches the
current loader iterator can still yield, and the log of cumulative batch
counts at which `loader_iter = iter(loader)` was re-executed. -/
structure DriverSt where
  remaining : Nat
  reloads : List Nat
deriving DecidableEq

/-- One sub-step of the gradient-accumulation loop in `main`
(`train_cityscapes.py`): `next(loader_iter)` — a `StopIteration` error when
the iterator is exhausted — followed by
`if ((iteration - 1) * ITER_SIZE + i) % len(loader) == 0:
loader_iter = iter(loader)`. -/
def subStep (L S iter i : Nat) (st : DriverSt) : Except String DriverSt :=
  if st.remaining = 0 then Except.error "StopIteration"
  else
    let consumed : DriverSt := { st with remaining := st.remaining - 1 }
    if ((iter - 1) * S + i) % L = 0 then
      Except.ok { remaining := L, reloads := consumed.reloads ++ [(iter - 1) * S + i] }
    else Except.ok consumed

/-- Run a fallible step over a list of indices, stopping at the first
error. -/
def foldE (f : Nat → DriverSt → Except String DriverSt) :
    List Nat → DriverSt → Except String DriverSt
  | [], st => Except.ok st
  | i :: rest, st =>
      match f i st with
      | Except.error e => Except.error e
      | Except.ok st' => foldE f rest st'

/-- The inner loop `for i in range(1, ITER_SIZE + 1)` of one training
iteration. -/
def runIteration (L S iter : Nat) (st : DriverSt) : Except String DriverSt :=
  foldE (subStep L S iter) (List.range' 1 S) st

/-- The outer loop `for iteration in range(1, ITER_MAX + 1)` of `main`,
starting from the fresh `loader_iter = iter(loader)` created before the
loop (L batches available, no reloads yet). -/
def runDriver (L S T : Nat) : Except String DriverSt :=
  foldE (fun iter st => runIteration L S iter st) (List.range' 1 T)
    { remaining := L, reloads := [] }

/-- The multiples of L among 1, ..., c, in order. -/
def multiplesUpTo (L c : Nat) : List Nat :=
  (List.range' 1 c).filter (fun k => k % L == 0)

/-- The class of a module, as tested by `isinstance(m, nn.Conv2d)`. -/
inductive ModuleKind where
  | conv2d
  | batchNorm2d
  | other
deriving DecidableEq

/-- One entry of `model.named_modules()`: the dotted module name, the
module's class, its `weight` and `bias` attributes and its `parameters()`
list, all parameters as abstract identifiers. -/
structure NamedModule where
  name : String
  kind : ModuleKind
  weight : Option Nat
  bias : Option Nat
  params : List Nat

/-- `get_lr_params` from `train_cityscapes.py`: key '1x' yields every
parameter of every `nn.Conv2d` module whose name contains 'layer'; key
'10x' yields the weight of every `nn.Conv2d` module whose name contains
'aspp'; key '20x' yields the bias of those same modules. -/
def get_lr_params (ms : List NamedModule) (key : String) : List Nat :=
  (if key = "1x" then
    ((ms.filter (fun m => containsSub m.name "layer" &&
        (m.kind == ModuleKind.conv2d))).map (fun m => m.params)).flatten
   else []) ++
  (if key = "10x" then
    (ms.filter (fun m => containsSub m.name "aspp" &&
        (m.kind == ModuleKind.conv2d))).filterMap (fun m => m.weight)
   else []) ++
  (if key = "20x" then
    (ms.filter (fun m => containsSub m.name "aspp" &&
        (m.kind == ModuleKind.conv2d))).filterMap (fun m => m.bias)
   else [])

/-- The set of parameters handed to the SGD optimizer in `main`: the three
groups built from keys '1x', '10x', '20x'. -/
def optimizer_params (ms : List NamedModule) : List Nat :=
  get_lr_params ms "1x" ++ get_lr_params ms "10x" ++ get_lr_params ms "20x"

/-- One optimizer step over a parameter assignment: a parameter is rewritten
by the update rule exactly when it belongs to one of the three groups. -/
def optimizer_step (ms : List NamedModule) (upd : Nat → ℚ → ℚ) (theta : Nat → ℚ) :
    Nat → ℚ :=
  fun pid => if pid ∈ optimizer_params ms then upd pid (theta pid) else theta pid

/-- A concrete module list shaped like the model: a backbone convolution
with its batch-normalization unit, and an ASPP branch convolution.
Parameters 2 and 3 are the batch-normalization scale and shift. -/
def modelModules : List NamedModule :=
  [{ name := "scale.layer1.conv1.conv", kind := ModuleKind.conv2d,
     weight := some 0, bias := some 1, params := [0, 1] },
   { name := "scale.layer1.conv1.bn", kind := ModuleKind.batchNorm2d,
     weight := some 2, bias := some 3, params := [2, 3] },
   { name := "scale.aspp.stages.c0", kind := ModuleKind.conv2d,
     weight := some 4, bias := some 5, params := [4, 5] }]

end DeepLabSpec

namespace DeepLabSpec

/-- C1: for every input image tensor (and every composite network and
upsampling operator), the fused output of `MSC.forward` equals, at every
batch, channel and pixel index, the elementwise maximum of the full-scale
output, the 75%-scale output upsampled to the full-scale output's spatial
size, and the 50%-scale output upsampled to that same size. -/
theorem msc_fused_is_pointwise_max
    (upsample : Nat → Tensor → Tensor) (scale : Tensor → Tensor)
    (training : Bool) (st : MSCState) (x : Tensor) (n c i j : Nat) :
    (fusedOutput (MSC_forward upsample scale training st x).2).data n c i j =
      max ((scale x).data n c i j)
        (max ((upsample (scale x).height (scale (upsample (3 * x.height / 4) x))).data n c i j)
             ((upsample (scale x).height (scale (upsample (x.height / 2) x))).data n c i j)) := by
  cases training <;>
    simp [MSC_forward, fusedOutput, torchMaxDim0, torchStack, List.getLastD,
      show List.range 3 = [0, 1, 2] from rfl, max_assoc]

/-- C2: in training mode the wrapper returns exactly the four score maps
[full-scale, 75%-scale, 50%-scale, fused maximum] in that order, and in
evaluation mode it returns exactly one tensor, the fused maximum. -/
theorem msc_output_arity
    (upsample : Nat → Tensor → Tensor) (scale : Tensor → Tensor)
    (st : MSCState) (x : Tensor) :
    (MSC_forward upsample scale true st x).2 =
      Sum.inr [scale x,
        scale (upsample (3 * x.height / 4) x),
        scale (upsample (x.height / 2) x),
        torchMaxDim0 (torchStack
          [scale x,
           upsample (scale x).height (scale (upsample (3 * x.height / 4) x)),
           upsample (scale x).height (scale (upsample (x.height / 2) x))])] ∧
    (MSC_forward upsample scale false st x).2 =
      Sum.inl (torchMaxDim0 (torchStack
          [scale x,
           upsample (scale x).height (scale (upsample (3 * x.height / 4) x)),
           upsample (scale x).height (scale (upsample (x.height / 2) x))])) := by
  exact ⟨rfl, rfl⟩

/-- C5: the training/evaluation toggle affects only which outputs the
wrapper returns: the module state transition is the same in both modes, and
there are tensors o100, o075, o050, fused such that training mode returns
exactly [o100, o075, o050, fused] while evaluation mode returns exactly
that same fused tensor. -/
theorem msc_mode_independence
    (upsample : Nat → Tensor → Tensor) (scale : Tensor → Tensor)
    (st : MSCState) (x : Tensor) :
    (MSC_forward upsample scale true st x).1 =
      (MSC_forward upsample scale false st x).1 ∧
    ∃ o100 o075 o050 fused,
      (MSC_forward upsample scale true st x).2 = Sum.inr [o100, o075, o050, fused] ∧
      (MSC_forward upsample scale false st x).2 = Sum.inl fused := by
  exact ⟨rfl, _, _, _, _, rfl, rfl⟩

/-- C8 counterexample: starting from a wrapper holding nothing beyond its
learned parameters (all three `interp` attributes unset), a single forward
pass leaves the wrapper holding the three upsampling modules constructed
during the pass, so after the call the wrapper does NOT hold only its
learned parameters: state created in the pass outlives it. -/
theorem msc_forward_retains_state :
    (MSC_forward (fun _ t => t) (fun t => t) true freshMSCState inputT32).1 =
      { interp075 := some 24, interp050 := some 16, interp100 := some 32 } ∧
    (MSC_forward (fun _ t => t) (fun t => t) true freshMSCState inputT32).1 ≠
      freshMSCState := by
  exact ⟨rfl, by decide⟩

/-- C8 amended: a forward pass does retain state (the three upsampling
modules), but that state is parameter-free and inert: the outputs of a
forward pass do not depend on the retained state from any earlier pass, and
the state after a pass is fully determined by the current input alone
(each retained size is overwritten from the current input before use). -/
theorem msc_retained_state_is_inert
    (upsample : Nat → Tensor → Tensor) (scale : Tensor → Tensor)
    (training : Bool) (st st' : MSCState) (x : Tensor) :
    (MSC_forward upsample scale training st x).2 =
      (MSC_forward upsample scale training st' x).2 ∧
    (MSC_forward upsample scale training st x).1 =
      { interp075 := some (3 * x.height / 4), interp050 := some (x.height / 2),
        interp100 := some ((scale x).height) } := by
  exact ⟨rfl, rfl⟩

/-- C3: the scheduler updates the three groups' rates exactly when the
iteration t is divisible by the decay interval and t ≤ max_iter, setting
them to base_lr*(1 - t/max_iter)^power times 1, 10 and 20 respectively,
and leaves them unchanged otherwise; in particular with base_lr = 1,
max_iter = 100, power = 1, decay_iter = 10, iteration 50 yields the rates
(1/2, 5, 10) and iteration 51 leaves any rates unchanged. -/
theorem poly_lr_scheduler_spec (g : ParamGroupRates) (lr : ℚ) (t d m p : Nat)
    (hd : 0 < d) (hm : 0 < m) :
    (¬(t % d = 0 ∧ t ≤ m) → poly_lr_scheduler g lr t d m p = g) ∧
    (t % d = 0 → t ≤ m → poly_lr_scheduler g lr t d m p =
      { lr0 := lr * (1 - (t : ℚ) / (m : ℚ)) ^ p,
        lr1 := 10 * (lr * (1 - (t : ℚ) / (m : ℚ)) ^ p),
        lr2 := 20 * (lr * (1 - (t : ℚ) / (m : ℚ)) ^ p) }) ∧
    poly_lr_scheduler g 1 50 10 100 1 = { lr0 := 1/2, lr1 := 5, lr2 := 10 } ∧
    poly_lr_scheduler g 1 51 10 100 1 = g := by
  refine ⟨?_, ?_, ?_, ?_⟩
  · intro h
    rw [poly_lr_scheduler, if_pos]
    omega
  · intro h1 h2
    rw [poly_lr_scheduler, if_neg (by omega)]
  · rw [poly_lr_scheduler, if_neg (by omega)]
    norm_num
  · rw [poly_lr_scheduler, if_pos (by omega)]

/-- Witness for C3: the scheduler applied at iteration 50 with base rate 1,
decay interval 10, max_iter 100, power 1 produces the rates (1/2, 5, 10). -/
theorem poly_lr_scheduler_spec_witness :
    poly_lr_scheduler { lr0 := 1, lr1 := 10, lr2 := 20 } 1 50 10 100 1 =
      { lr0 := 1/2, lr1 := 5, lr2 := 10 } :=
  (poly_lr_scheduler_spec { lr0 := 1, lr1 := 10, lr2 := 20 } 1 50 10 100 1
    (by decide) (by decide)).2.2.1

/-- C4 counterexample: the load performed by `main` uses strict=False, so a
checkpoint missing a key that does NOT belong to the ASPP head (here the
backbone stem weight, whose name does not contain "aspp") still loads
without failing, keeping the fresh initialization — it does not fail
fatally as the claim requires. -/
theorem main_load_tolerates_nonaspp_missing_key :
    containsSub "scale.layer1.conv1.conv.weight" "aspp" = false ∧
    main_load_checkpoint backboneOnlyModel [] = Except.ok backboneOnlyModel := by
  exact ⟨by decide, rfl⟩

/-- C4 amended: with the strict=False load actually performed by `main`,
every missing key — whether it belongs to the ASPP head or not — is
tolerated and keeps its fresh initialization, and the load succeeds
whenever every key present in both the model and the checkpoint has a
matching shape; keys present with matching shape take the checkpoint's
value. -/
theorem main_load_partial_semantics (model ckpt : List (String × PTensor))
    (h : ∀ e ∈ model, ∀ q, lookupKey ckpt e.1 = some q → q.shape = e.2.shape) :
    main_load_checkpoint model ckpt =
      Except.ok (model.map (fun e =>
        match lookupKey ckpt e.1 with
        | some q => (e.1, q)
        | none => e)) := by
  rw [main_load_checkpoint, load_state_dict]
  have hmm : (model.any (fun e =>
      match lookupKey ckpt e.1 with
      | some q => decide (q.shape ≠ e.2.shape)
      | none => false)) = false := by
    rw [List.any_eq_false]
    intro e he
    cases hq : lookupKey ckpt e.1 with
    | none => simp
    | some q => simpa using h e he q hq
  rw [hmm]
  simp only [Bool.false_or, Bool.false_and]
  rw [if_neg (by decide)]
  congr 1
  apply List.map_congr_left
  intro e he
  cases hq : lookupKey ckpt e.1 with
  | none => simp
  | some q => simp [h e he q hq]

/-- Witness for C4 amended: loading a checkpoint carrying only the ASPP
branch weight into a two-parameter model updates that parameter and keeps
the fresh backbone parameter, without failing. -/
theorem main_load_partial_semantics_witness :
    main_load_checkpoint
      [("scale.layer1.conv1.conv.weight", { shape := [64, 3, 7, 7], content := 1 }),
       ("scale.aspp.stages.c0.weight", { shape := [21, 2048, 3, 3], content := 2 })]
      [("scale.aspp.stages.c0.weight", { shape := [21, 2048, 3, 3], content := 5 })] =
    Except.ok
      [("scale.layer1.conv1.conv.weight", { shape := [64, 3, 7, 7], content := 1 }),
       ("scale.aspp.stages.c0.weight", { shape := [21, 2048, 3, 3], content := 5 })] := by
  rw [main_load_partial_semantics _ _ (by decide)]
  rfl

theorem bottleneck_stride1 (d m : Nat) (hm : 1 ≤ m) : bottleneckOutSize 1 d m = m := by
  simp only [bottleneckOutSize, convOutSize]
  omega

theorem resStackRest_pres (k : Nat) : ∀ d m : Nat, 1 ≤ m → resStackRestSize k d m = m := by
  induction k with
  | zero => intro d m hm; rfl
  | succ k ih =>
      intro d m hm
      show resStackRestSize k d (bottleneckOutSize 1 d m) = m
      rw [bottleneck_stride1 d m hm]
      exact ih d m hm

theorem resBlock3_pres (d m : Nat) (hm : 1 ≤ m) : resBlockOutSize 3 1 d m = m := by
  have h0 : resBlockOutSize 3 1 d m = resStackRestSize 2 d (bottleneckOutSize 1 d m) := rfl
  rw [h0, bottleneck_stride1 d m hm]
  exact resStackRest_pres 2 d m hm

theorem resBlock23_pres (d m : Nat) (hm : 1 ≤ m) : resBlockOutSize 23 1 d m = m := by
  have h0 : resBlockOutSize 23 1 d m = resStackRestSize 22 d (bottleneckOutSize 1 d m) := rfl
  rw [h0, bottleneck_stride1 d m hm]
  exact resStackRest_pres 22 d m hm

theorem resBlock4_stride2 (m : Nat) (hm : 1 ≤ m) :
    resBlockOutSize 4 2 1 m = (m - 1) / 2 + 1 := by
  have h0 : resBlockOutSize 4 2 1 m = resStackRestSize 3 1 (bottleneckOutSize 2 1 m) := rfl
  have h1 : bottleneckOutSize 2 1 m = (m - 1) / 2 + 1 := by
    simp only [bottleneckOutSize, convOutSize]
    omega
  rw [h0, h1]
  exact resStackRest_pres 3 1 _ (by omega)

/-- C6 counterexample: at input spatial size 16 the composite network's
output size is 3, not ceil(16/8) = 2, so the claimed equality with
ceil(input_size / 8) fails for a valid input size. -/
theorem deeplab_out_size_not_ceil_at_16 :
    deeplabOutSize 16 = 3 ∧ (16 + 7) / 8 = 2 ∧ deeplabOutSize 16 ≠ (16 + 7) / 8 := by
  decide

/-- C6 amended: under the reference configuration the output spatial size
is floor((n + 1) / 8) + 1 for every input size n ≥ 1; this equals
ceil(n / 8) exactly when n mod 8 is neither 0 nor 7 — in particular input
size 513 gives 65 and input size 321 gives 41, as the claim's instances
state. -/
theorem deeplab_out_size_formula (n : Nat) (h : 1 ≤ n) :
    deeplabOutSize n = (n + 1) / 8 + 1 ∧
    (n % 8 ≠ 0 → n % 8 ≠ 7 → deeplabOutSize n = (n + 7) / 8) ∧
    deeplabOutSize 513 = 65 ∧ deeplabOutSize 321 = 41 := by
  have key : deeplabOutSize n =
      convOutSize (resBlockOutSize 3 1 4 (resBlockOutSize 23 1 2 (resBlockOutSize 4 2 1
        (resBlockOutSize 3 1 1 (poolOutSizeCeil (convOutSize n 7 2 3 1) 3 2 1))))) 3 1 6 6 :=
    rfl
  have ha : convOutSize n 7 2 3 1 = (n - 1) / 2 + 1 := by
    simp only [convOutSize]
    omega
  have hbp : poolOutSizeCeil ((n - 1) / 2 + 1) 3 2 1 = ((n - 1) / 2 + 1) / 2 + 1 := by
    simp only [poolOutSizeCeil]
    omega
  have h3 := resBlock3_pres 1 (((n - 1) / 2 + 1) / 2 + 1) (by omega)
  have h4 := resBlock4_stride2 (((n - 1) / 2 + 1) / 2 + 1) (by omega)
  have h23 := resBlock23_pres 2 ((((n - 1) / 2 + 1) / 2 + 1 - 1) / 2 + 1) (by omega)
  have hf := resBlock3_pres 4 ((((n - 1) / 2 + 1) / 2 + 1 - 1) / 2 + 1) (by omega)
  have hasp : convOutSize ((((n - 1) / 2 + 1) / 2 + 1 - 1) / 2 + 1) 3 1 6 6 =
      (((n - 1) / 2 + 1) / 2 + 1 - 1) / 2 + 1 := by
    simp only [convOutSize]
    omega
  have hmain : deeplabOutSize n = (n + 1) / 8 + 1 := by
    rw [key, ha, hbp, h3, h4, h23, hf, hasp]
    omega
  refine ⟨hmain, fun h0 h7 => ?_, by decide, by decide⟩
  rw [hmain]
  omega

/-- Witness for C6 amended: at input size 513 the output size is 65, which
is both floor((513+1)/8) + 1 and ceil(513/8). -/
theorem deeplab_out_size_formula_witness :
    deeplabOutSize 513 = (513 + 1) / 8 + 1 ∧ deeplabOutSize 513 = 65 :=
  ⟨(deeplab_out_size_formula 513 (by decide)).1,
   (deeplab_out_size_formula 513 (by decide)).2.2.1⟩

theorem aspp_fold_tensor (x : Tensor) (l : List ASPPBranch) :
    ∀ a : Tensor, ∃ t,
      l.foldl (fun h st => pyAdd h (conv2d st x)) (PyNum.tensor a) = PyNum.tensor t ∧
      t.batch = a.batch ∧ t.channels = a.channels ∧
      t.height = a.height ∧ t.width = a.width ∧
      ∀ n c i j, t.data n c i j =
        a.data n c i j + ((l.map (fun br => (conv2d br x).data n c i j)).sum) := by
  induction l with
  | nil =>
      intro a
      exact ⟨a, rfl, rfl, rfl, rfl, rfl, by simp⟩
  | cons br rest ih =>
      intro a
      obtain ⟨t, h1, hb, hc, hh, hw, hdata⟩ :=
        ih { a with data := fun n c i j => a.data n c i j + (conv2d br x).data n c i j }
      refine ⟨t, h1, hb, hc, hh, hw, ?_⟩
      intro n c i j
      rw [hdata]
      simp [add_assoc]

theorem aspp_forward_sum (x : Tensor) (l : List ASPPBranch) (hl : l ≠ [])
    (hsh : ∀ br ∈ l, (conv2d br x).height = x.height ∧ (conv2d br x).width = x.width) :
    ∃ t, aspp_forward l x = PyNum.tensor t ∧ t.height = x.height ∧ t.width = x.width ∧
      ∀ n c i j, t.data n c i j =
        (l.map (fun br => (conv2d br x).data n c i j)).sum := by
  cases l with
  | nil => exact absurd rfl hl
  | cons br rest =>
      obtain ⟨t, h1, hb, hc, hh, hw, hdata⟩ :=
        aspp_fold_tensor x rest
          { conv2d br x with data := fun n c i j => ((0 : Int) : ℚ) + (conv2d br x).data n c i j }
      refine ⟨t, h1, ?_, ?_, ?_⟩
      · rw [hh]
        exact (hsh br (by simp)).1
      · rw [hw]
        exact (hsh br (by simp)).2
      · intro n c i j
        rw [hdata]
        simp

/-- C7: every branch built by the ASPP constructor is a 3x3 stride-1
convolution with padding equal to its dilation, every branch output has
the input's spatial shape, and the head's forward output is the tensor
whose every entry is the elementwise sum of the branch outputs there. -/
theorem aspp_branches_spec (inC outC : Nat) (w : Nat → Nat → Nat → Nat → Nat → ℚ)
    (b : Nat → Nat → ℚ) (ps : List Nat) (x : Tensor)
    (hps : ps ≠ []) (hh : 1 ≤ x.height) (hw : 1 ≤ x.width) :
    (∀ br ∈ mkASPPStages inC outC ps w b,
      br.kernel = 3 ∧ br.stride = 1 ∧ br.padding = br.dilation ∧
      (conv2d br x).height = x.height ∧ (conv2d br x).width = x.width) ∧
    ∃ t, aspp_forward (mkASPPStages inC outC ps w b) x = PyNum.tensor t ∧
      t.height = x.height ∧ t.width = x.width ∧
      ∀ n c i j, t.data n c i j =
        ((mkASPPStages inC outC ps w b).map (fun br => (conv2d br x).data n c i j)).sum := by
  have hbr : ∀ br ∈ mkASPPStages inC outC ps w b,
      br.kernel = 3 ∧ br.stride = 1 ∧ br.padding = br.dilation ∧
      (conv2d br x).height = x.height ∧ (conv2d br x).width = x.width := by
    intro br hmem
    simp only [mkASPPStages, List.mem_map] at hmem
    obtain ⟨ip, hip, rfl⟩ := hmem
    refine ⟨rfl, rfl, rfl, ?_, ?_⟩
    · show convOutSize x.height 3 1 ip.2 ip.2 = x.height
      simp only [convOutSize]
      omega
    · show convOutSize x.width 3 1 ip.2 ip.2 = x.width
      simp only [convOutSize]
      omega
  refine ⟨hbr, ?_⟩
  have hlen : (mkASPPStages inC outC ps w b).length = ps.length := by
    simp [mkASPPStages]
  have hne : mkASPPStages inC outC ps w b ≠ [] := by
    intro h0
    apply hps
    have := congrArg List.length h0
    rw [hlen] at this
    exact List.length_eq_zero.mp this
  exact aspp_forward_sum x (mkASPPStages inC outC ps w b) hne
    (fun br hmem => ⟨(hbr br hmem).2.2.2.1, (hbr br hmem).2.2.2.2⟩)

/-- Witness for C7: the four-branch head with rates (6, 12, 18, 24) on a
1x1x5x5 input produces a single tensor of spatial shape 5x5. -/
theorem aspp_branches_spec_witness :
    ∃ t, aspp_forward (mkASPPStages 1 1 [6, 12, 18, 24] wZero bZero) inputT5 =
      PyNum.tensor t ∧ t.height = 5 ∧ t.width = 5 := by
  obtain ⟨-, t, h1, h2, h3, -⟩ :=
    aspp_branches_spec 1 1 wZero bZero [6, 12, 18, 24] inputT5
      (by decide) (by decide) (by decide)
  exact ⟨t, h1, h2, h3⟩

theorem range'_snoc : ∀ n a : Nat, List.range' a (n + 1) = List.range' a n ++ [a + n] := by
  intro n
  induction n with
  | zero => intro a; rfl
  | succ n ih =>
      intro a
      show a :: List.range' (a + 1) (n + 1) = (a :: List.range' (a + 1) n) ++ [a + (n + 1)]
      rw [ih (a + 1), List.cons_append]
      have e : a + 1 + n = a + (n + 1) := by omega
      rw [e]

theorem multiplesUpTo_succ (L c : Nat) :
    multiplesUpTo L (c + 1) =
      multiplesUpTo L c ++ (if (c + 1) % L = 0 then [c + 1] else []) := by
  rw [multiplesUpTo, multiplesUpTo, range'_snoc c 1, List.filter_append]
  congr 1
  have e : 1 + c = c + 1 := Nat.add_comm 1 c
  rw [e]
  by_cases h0 : (c + 1) % L = 0
  · rw [if_pos h0]
    simp [List.filter_cons, h0]
  · rw [if_neg h0]
    simp [List.filter_cons, h0]

theorem mod_succ_step (c L : Nat) (hL : 1 ≤ L) :
    ((c + 1) % L = 0 ∧ c % L + 1 = L) ∨
    ((c + 1) % L = c % L + 1 ∧ c % L + 1 < L) := by
  rcases Nat.lt_or_ge 1 L with h | h
  · have h1 : c % L < L := Nat.mod_lt c (by omega)
    have h2 : (c + 1) % L = (c % L + 1) % L := by
      rw [Nat.add_mod c 1 L, Nat.mod_eq_of_lt h]
    by_cases he : c % L + 1 = L
    · exact Or.inl ⟨by rw [h2, he, Nat.mod_self], he⟩
    · have hlt : c % L + 1 < L := by omega
      exact Or.inr ⟨by rw [h2, Nat.mod_eq_of_lt hlt], hlt⟩
  · have hL1 : L = 1 := by omega
    subst hL1
    exact Or.inl ⟨Nat.mod_one _, by simp [Nat.mod_one]⟩

theorem subStep_eval (L S iter i rem : Nat) (rl : List Nat) (hrem : rem ≠ 0) :
    subStep L S iter i { remaining := rem, reloads := rl } =
      (if ((iter - 1) * S + i) % L = 0 then
        Except.ok { remaining := L, reloads := rl ++ [(iter - 1) * S + i] }
      else Except.ok { remaining := rem - 1, reloads := rl }) := by
  simp only [subStep]
  rw [if_neg hrem]

theorem subStep_run (L S iter : Nat) (hL : 1 ≤ L) :
    ∀ len i0 : Nat,
      foldE (subStep L S iter) (List.range' (i0 + 1) len)
        { remaining := L - ((iter - 1) * S + i0) % L,
          reloads := multiplesUpTo L ((iter - 1) * S + i0) } =
      Except.ok { remaining := L - ((iter - 1) * S + i0 + len) % L,
                  reloads := multiplesUpTo L ((iter - 1) * S + i0 + len) } := by
  intro len
  induction len with
  | zero => intro i0; rfl
  | succ len ih =>
      intro i0
      have hmlt : ((iter - 1) * S + i0) % L < L := Nat.mod_lt _ (by omega)
      have hstep := subStep_eval L S iter (i0 + 1) (L - ((iter - 1) * S + i0) % L)
        (multiplesUpTo L ((iter - 1) * S + i0)) (by omega)
      have e1 : (iter - 1) * S + (i0 + 1) = ((iter - 1) * S + i0) + 1 := rfl
      rw [e1] at hstep
      have ih1 := ih (i0 + 1)
      rw [e1] at ih1
      have e2 : (iter - 1) * S + i0 + (len + 1) = (iter - 1) * S + i0 + 1 + len := by
        omega
      rw [e2]
      have hlist : List.range' (i0 + 1) (len + 1) = (i0 + 1) :: List.range' (i0 + 2) len :=
        rfl
      rw [hlist, foldE, hstep]
      rcases mod_succ_step ((iter - 1) * S + i0) L hL with ⟨hz, hcL⟩ | ⟨hs, hlt⟩
      · rw [if_pos hz]
        have hrel : multiplesUpTo L ((iter - 1) * S + i0) ++ [(iter - 1) * S + i0 + 1] =
            multiplesUpTo L ((iter - 1) * S + i0 + 1) := by
          rw [multiplesUpTo_succ L ((iter - 1) * S + i0), if_pos hz]
        rw [hrel]
        rw [hz] at ih1
        exact ih1
      · have hnz : ¬(((iter - 1) * S + i0 + 1) % L = 0) := by
          rw [hs]
          omega
        rw [if_neg hnz]
        have hrel2 : multiplesUpTo L ((iter - 1) * S + i0 + 1) =
            multiplesUpTo L ((iter - 1) * S + i0) := by
          rw [multiplesUpTo_succ L ((iter - 1) * S + i0), if_neg hnz, List.append_nil]
        rw [hs, hrel2] at ih1
        exact ih1

theorem driver_run (L S : Nat) (hL : 1 ≤ L) :
    ∀ tlen b0 : Nat,
      foldE (fun iter st => runIteration L S iter st) (List.range' (b0 + 1) tlen)
        { remaining := L - (b0 * S) % L, reloads := multiplesUpTo L (b0 * S) } =
      Except.ok { remaining := L - ((b0 + tlen) * S) % L,
                  reloads := multiplesUpTo L ((b0 + tlen) * S) } := by
  intro tlen
  induction tlen with
  | zero => intro b0; rfl
  | succ tlen ih =>
      intro b0
      have hinner2 : runIteration L S (b0 + 1)
          { remaining := L - (b0 * S) % L, reloads := multiplesUpTo L (b0 * S) } =
          Except.ok { remaining := L - (b0 * S + S) % L,
                      reloads := multiplesUpTo L (b0 * S + S) } :=
        subStep_run L S (b0 + 1) hL S 0
      have hlist : List.range' (b0 + 1) (tlen + 1) = (b0 + 1) :: List.range' (b0 + 2) tlen :=
        rfl
      rw [hlist, foldE, hinner2]
      have ih1 := ih (b0 + 1)
      rw [Nat.succ_mul] at ih1
      have e3 : (b0 + (tlen + 1)) * S = (b0 + 1 + tlen) * S := by
        rw [show b0 + (tlen + 1) = b0 + 1 + tlen from by omega]
      rw [e3]
      exact ih1

/-- C9: for every dataset yielding L ≥ 1 batches per pass and all iteration
and accumulation counts, the driver's nested loops never call `next` on an
exhausted iterator — the run returns normally instead of a StopIteration
error — and the iterator is re-created exactly at those cumulative batch
counts (iteration - 1) * ITER_SIZE + i that are multiples of L. -/
theorem driver_never_exhausts (L S T : Nat) (hL : 1 ≤ L) :
    runDriver L S T =
      Except.ok { remaining := L - (T * S) % L, reloads := multiplesUpTo L (T * S) } := by
  have h := driver_run L S hL T 0
  have e : (0 + T) * S = T * S := by rw [Nat.zero_add]
  rw [Nat.zero_mul, Nat.zero_mod, e] at h
  exact h

/-- Witness for C9: with 3 batches per pass, accumulation size 5 (larger
than the dataset) and 2 iterations, the driver finishes normally with 2
batches left and reloads exactly at cumulative counts 3, 6 and 9. -/
theorem driver_never_exhausts_witness :
    runDriver 3 5 2 = Except.ok { remaining := 2, reloads := [3, 6, 9] } :=
  (driver_never_exhausts 3 5 2 (by decide)).trans rfl

/-- C10: every parameter of the three optimizer groups comes from a module
of class Conv2d, so a parameter belonging only to batch-normalization
modules — such as a batch-normalization scale or shift — is in none of the
three groups, and an optimizer step leaves it unchanged. -/
theorem bn_params_not_in_optimizer (ms : List NamedModule) (pid : Nat)
    (hbn : ∃ m ∈ ms, m.kind = ModuleKind.batchNorm2d ∧ pid ∈ m.params)
    (h : ∀ m ∈ ms, m.kind = ModuleKind.conv2d →
      pid ∉ m.params ∧ m.weight ≠ some pid ∧ m.bias ≠ some pid) :
    (∀ q ∈ optimizer_params ms, ∃ m ∈ ms, m.kind = ModuleKind.conv2d ∧
      (q ∈ m.params ∨ m.weight = some q ∨ m.bias = some q)) ∧
    pid ∉ optimizer_params ms ∧
    ∀ upd theta, optimizer_step ms upd theta pid = theta pid := by
  have hsel : ∀ q ∈ optimizer_params ms, ∃ m ∈ ms, m.kind = ModuleKind.conv2d ∧
      (q ∈ m.params ∨ m.weight = some q ∨ m.bias = some q) := by
    intro q hq
    simp only [optimizer_params, get_lr_params, String.reduceEq, reduceIte,
      List.append_nil, List.nil_append, List.mem_append, List.mem_flatten,
      List.mem_map, List.mem_filter, List.mem_filterMap, Bool.and_eq_true,
      beq_iff_eq] at hq
    rcases hq with (hq | hq) | hq
    · obtain ⟨l, ⟨m, ⟨hm, _, hk⟩, rfl⟩, hql⟩ := hq
      exact ⟨m, hm, hk, Or.inl hql⟩
    · obtain ⟨m, ⟨hm, _, hk⟩, hw⟩ := hq
      exact ⟨m, hm, hk, Or.inr (Or.inl hw)⟩
    · obtain ⟨m, ⟨hm, _, hk⟩, hb⟩ := hq
      exact ⟨m, hm, hk, Or.inr (Or.inr hb)⟩
  have hnot : pid ∉ optimizer_params ms := by
    intro hpid
    obtain ⟨m, hm, hkind, hcase⟩ := hsel pid hpid
    obtain ⟨h1, h2, h3⟩ := h m hm hkind
    rcases hcase with hc | hc | hc
    · exact h1 hc
    · exact h2 hc
    · exact h3 hc
  refine ⟨hsel, hnot, ?_⟩
  intro upd theta
  rw [optimizer_step, if_neg hnot]

/-- Witness for C10: in the concrete module list, parameter 2 (the
batch-normalization scale) is in no optimizer group and survives an
optimizer step unchanged. -/
theorem bn_params_not_in_optimizer_witness :
    (2 ∉ optimizer_params modelModules) ∧
    optimizer_step modelModules (fun _ v => v + 1) (fun _ => 0) 2 = 0 := by
  have h := bn_params_not_in_optimizer modelModules 2 (by decide) (by decide)
  exact ⟨h.2.1, h.2.2 (fun _ v => v + 1) (fun _ => 0)⟩

end DeepLabSpec
